import Mathlib

/-!
Shallow embedding of the templatefs overlay-filesystem core, translated from
src/fuseOperations.c and src/processTemplate.c: the elastic buffer and the
pipe-drain loop of the executable-template driver, the file-handle operations
of the FUSE surface (open, read, write, truncate, getattr, create, statfs),
and the array-iteration cursor of the template-render engine.
-/

namespace Templatefs

/-! Errno constants (Linux), and the stdio EOF constant. -/

def EPERM : Int := 1
def ENOMEM : Int := 12
def EINVAL : Int := 22
def ENFILE : Int := 23
def cEOF : Int := -1

/-- fixupResult from src/fuseOperations.c: substitute -errno if result == -1. -/
def fixupResult (result errno : Int) : Int :=
  if result = -1 then -errno else result

/-!
tElasticBuffer (src/fuseOperations.c lines 76-155): a buffer that expands as
it fills.  `data` models the bytes stored so far; `available`, `remaining`
and `headroom` mirror the three ssize_t counters of the C struct.
-/

structure tElasticBuffer where
  data : List Nat
  available : Int
  remaining : Int
  headroom : Int
deriving Repr, DecidableEq

/-- newElasticBuffer (successful allocation): available = 0, remaining = size. -/
def newElasticBuffer (size headroom : Nat) : tElasticBuffer :=
  { data := [], available := 0, remaining := (size : Int), headroom := (headroom : Int) }

/-- makeRoom: if remaining < headroom, grow remaining by headroom * 2. -/
def makeRoom (buf : tElasticBuffer) : tElasticBuffer :=
  if buf.remaining < buf.headroom then
    { buf with remaining := buf.remaining + buf.headroom * 2 }
  else
    buf

/-- increaseAvailable: available += additional; remaining -= additional; makeRoom. -/
def increaseAvailable (buf : tElasticBuffer) (additional : Nat) : tElasticBuffer :=
  makeRoom { buf with available := buf.available + (additional : Int),
                      remaining := buf.remaining - (additional : Int) }

/-- The headroom invariant of the elastic buffer. -/
def ebInvariant (buf : tElasticBuffer) : Prop :=
  buf.headroom ≤ buf.remaining

instance (buf : tElasticBuffer) : Decidable (ebInvariant buf) := by
  unfold ebInvariant
  infer_instance

/-!
The pipe-drain loop of executeTemplate (src/fuseOperations.c lines 963-1033).
An event mirrors one struct epoll_event as seen by the loop body: which pipe
it refers to, whether EPOLLIN and EPOLLHUP/EPOLLERR are set, and the bytes
waiting on that descriptor.
-/

inductive PipeId where
  | stdoutPipe
  | stderrPipe
  | unknown
deriving Repr, DecidableEq

structure DrainEvent where
  fd : PipeId
  readable : Bool
  hangup : Bool
  bytes : List Nat
deriving Repr, DecidableEq

structure DrainState where
  stdoutBuf : tElasticBuffer
  stderrBuf : tElasticBuffer
  streamEOF : Bool
deriving Repr, DecidableEq

/-- One read(2) into an elastic buffer: getSpacePtr and the makeRoom count
argument both run makeRoom first, then up to that many bytes are appended.
Returns the updated buffer and the read count. -/
def readPipe (buf : tElasticBuffer) (incoming : List Nat) : tElasticBuffer × Nat :=
  let roomed := makeRoom (makeRoom buf)
  let count := min incoming.length roomed.remaining.toNat
  ({ roomed with data := roomed.data ++ incoming.take count }, count)

/-- The body of the event loop in executeTemplate, as written in the source:
the ready descriptor selects `buff`, but the read itself always targets the
stderr buffer (lines 1000-1005), and EPOLLHUP/EPOLLERR sets streamEOF. -/
def drainEvent (st : DrainState) (ev : DrainEvent) : DrainState :=
  let st1 :=
    if ev.readable then
      let buffSelected : Bool :=
        match ev.fd with
        | .stdoutPipe => true
        | .stderrPipe => true
        | .unknown => false
      if buffSelected then
        let (b, readSize) := readPipe st.stderrBuf ev.bytes
        { st with stderrBuf := increaseAvailable b readSize }
      else
        st
    else
      st
  if ev.hangup then { st1 with streamEOF := true } else st1

/-- The drain loop processes the event script in order. -/
def drainLoop (st : DrainState) (evs : List DrainEvent) : DrainState :=
  evs.foldl drainEvent st

/-- What executeTemplate hands back after draining: the stdout buffer's data
pointer and length go to the caller, the stderr buffer's data is logged. -/
structure ExecDrainResult where
  buffer : List Nat
  size : Int
  stderrLogged : List Nat
deriving Repr, DecidableEq

/-- The parent branch of executeTemplate: two 16 KiB / 2 KiB elastic buffers,
the drain loop, then the ownership transfer of the stdout buffer. -/
def executeTemplateDrain (evs : List DrainEvent) : ExecDrainResult :=
  let st0 : DrainState :=
    { stdoutBuf := newElasticBuffer 16384 2048,
      stderrBuf := newElasticBuffer 16384 2048,
      streamEOF := false }
  let st := drainLoop st0 evs
  { buffer := st.stdoutBuf.data,
    size := st.stdoutBuf.available,
    stderrLogged := st.stderrBuf.data }

/-! Theorems for claims C8 and C3. -/

/-- Claim C8 counterexample: allocation alone does not establish the
invariant.  A buffer allocated with initial size 1024 and headroom 2048 has
remaining = 1024 < 2048 = headroom, and nothing re-establishes the invariant. -/
theorem newElasticBuffer_invariant_fails :
    ¬ ebInvariant (newElasticBuffer 1024 2048) := by
  decide

/-- Claim C8 (amended): after makeRoom the invariant remaining ≥ headroom
holds (given the counters are non-negative), re-established when violated by
growing remaining by headroom * 2; after recording `additional` used bytes
with additional ≤ remaining (as in the drain loop, where reads are bounded by
makeRoom's return), the invariant holds; after allocation it holds provided
the initial size is at least the headroom, which is true of the program's
only allocations (size 16384, headroom 2048). -/
theorem elasticBuffer_invariant_amended (size headroom : Nat) (buf : tElasticBuffer)
    (additional : Nat)
    (hsz : headroom ≤ size)
    (hh : 0 ≤ buf.headroom)
    (hrem : 0 ≤ buf.remaining)
    (hadd : (additional : Int) ≤ buf.remaining) :
    ebInvariant (newElasticBuffer size headroom) ∧
    ebInvariant (makeRoom buf) ∧
    ebInvariant (increaseAvailable buf additional) ∧
    (makeRoom buf).remaining =
      (if buf.remaining < buf.headroom then buf.remaining + buf.headroom * 2
       else buf.remaining) := by
  refine ⟨?_, ?_, ?_, ?_⟩
  · unfold ebInvariant newElasticBuffer
    simp only
    exact_mod_cast hsz
  · unfold ebInvariant makeRoom
    split <;> simp_all
    all_goals omega
  · unfold ebInvariant increaseAvailable makeRoom
    split <;> simp_all
    all_goals omega
  · unfold makeRoom
    split <;> simp

/-- Claim C8 witness: the amended statement at the program's allocation
parameters (16384, 2048) and a 1000-byte read. -/
theorem elasticBuffer_invariant_amended_witness :
    (2048 ≤ 16384 ∧
      (0 : Int) ≤ (newElasticBuffer 16384 2048).headroom ∧
      (0 : Int) ≤ (newElasticBuffer 16384 2048).remaining ∧
      ((1000 : Nat) : Int) ≤ (newElasticBuffer 16384 2048).remaining) ∧
    (ebInvariant (newElasticBuffer 16384 2048) ∧
     ebInvariant (makeRoom (newElasticBuffer 16384 2048)) ∧
     ebInvariant (increaseAvailable (newElasticBuffer 16384 2048) 1000) ∧
     (makeRoom (newElasticBuffer 16384 2048)).remaining =
       (if (newElasticBuffer 16384 2048).remaining <
            (newElasticBuffer 16384 2048).headroom then
          (newElasticBuffer 16384 2048).remaining +
            (newElasticBuffer 16384 2048).headroom * 2
        else (newElasticBuffer 16384 2048).remaining)) :=
  ⟨⟨by decide, by decide, by decide, by decide⟩,
   elasticBuffer_invariant_amended 16384 2048 (newElasticBuffer 16384 2048) 1000
     (by decide) (by decide) (by decide) (by decide)⟩

/-- Claim C3 (code bug): on a script where the child writes bytes 104,105 to
its stdout pipe and then hangs up, the drain loop appends those bytes to the
stderr buffer and the caller receives an empty stdout buffer — the read in
the loop body targets stderrBuf regardless of which descriptor was ready. -/
theorem executeTemplate_drain_misdirects_stdout :
    (executeTemplateDrain
        [{ fd := PipeId.stdoutPipe, readable := true, hangup := false,
           bytes := [104, 105] },
         { fd := PipeId.stdoutPipe, readable := false, hangup := true,
           bytes := [] }]).buffer = [] ∧
    (executeTemplateDrain
        [{ fd := PipeId.stdoutPipe, readable := true, hangup := false,
           bytes := [104, 105] },
         { fd := PipeId.stdoutPipe, readable := false, hangup := true,
           bytes := [] }]).stderrLogged = [104, 105] := by
  decide

/-!
tFHFile (src/fuseOperations.c lines 34-42): the file variant of the handle
union.  A calloc'd handle has fd = 0, contents = NULL (none), length = 0.
-/

structure tFHFile where
  path : String
  fd : Int
  isTemplate : Bool
  isExecutable : Bool
  contents : Option (List Nat)
  length : Nat
deriving Repr, DecidableEq

/-- readFileOp (src/fuseOperations.c lines 1156-1186).  Returns the operation
result and the bytes copied into the caller's buffer.  The pass-through
branch (pread) is abstracted as a parameter. -/
def readFileOp (fh : Option tFHFile) (size : Nat) (offset : Nat)
    (pread : Nat → Nat → Int × List Nat) : Int × List Nat :=
  match fh with
  | none => (-ENFILE, [])
  | some f =>
    if f.isTemplate then
      match f.contents with
      | none => (-cEOF, [])
      | some cs =>
        if f.length ≤ offset then
          (-cEOF, [])
        else
          let sz := if f.length < offset + size then f.length - offset else size
          ((sz : Int), (cs.drop offset).take sz)
    else
      pread size offset

/-- openFileOp (src/fuseOperations.c lines 1093-1145), for a fresh handle.
`hasT` and `hasX` are the outcomes of the two faccessat probes, `openatRes`
is the fixed-up openat result, and `execRender` / `procRender` abstract
executeTemplate / processTemplate as the result code paired with the buffer
the render wrote (none when it left the cache untouched). -/
def openFileOp (path : String) (hasT hasX : Bool) (openatRes : Int)
    (execRender procRender : Int × Option (List Nat)) : Int × Option tFHFile :=
  let fh : tFHFile :=
    { path := path, fd := 0, isTemplate := hasT, isExecutable := hasX,
      contents := none, length := 0 }
  if openatRes < 0 then
    (openatRes, some fh)
  else
    let fh := { fh with fd := openatRes }
    if hasT then
      let render := if hasX then execRender else procRender
      let fh := { fh with contents := render.2,
                          length := (render.2.getD []).length }
      (render.1, some fh)
    else
      (0, some fh)

/-- writeFileOp (src/fuseOperations.c lines 1247-1268).  The Bool records
whether the pass-through pwrite was invoked (whether the file was touched). -/
def writeFileOp (fh : Option tFHFile) (buf : List Nat) (offset : Nat)
    (pwriteRes : Int) : Int × Bool :=
  match fh with
  | none => (-ENFILE, false)
  | some f =>
    if f.isTemplate then
      (-EPERM, false)
    else
      (pwriteRes, true)

/-- truncateFileOp (src/fuseOperations.c lines 815-840).  `fiPresent` is
whether fuse_file_info was non-NULL; the Bool records whether a truncating
system call (truncate or ftruncate) was invoked. -/
def truncateFileOp (fiPresent : Bool) (fh : Option tFHFile)
    (truncateRawRes ftruncateRes : Int) : Int × Bool :=
  if !fiPresent then
    (truncateRawRes, true)
  else
    match fh with
    | none => (-EINVAL, false)
    | some f =>
      if f.isTemplate then
        (-EPERM, false)
      else
        (ftruncateRes, true)

/-- createFileOp (src/fuseOperations.c lines 884-904): calloc a handle, try
openat, set path and fd only when the descriptor is valid, install the handle
and return 0 unconditionally. -/
def createFileOp (path : String) (openatRaw errno : Int) : Int × Option tFHFile :=
  let fh : tFHFile :=
    { path := "", fd := 0, isTemplate := false, isExecutable := false,
      contents := none, length := 0 }
  let fd := fixupResult openatRaw errno
  let fh := if 0 ≤ fd then { fh with path := path, fd := fd } else fh
  (0, some fh)

/-! Theorems for claims C1, C10, C2, C4 and C9. -/

/-- A concrete template-backed handle with a 4-byte cache, used as input by
several witnesses. -/
def fhC1 : tFHFile :=
  { path := "/t", fd := 5, isTemplate := true, isExecutable := false,
    contents := some [10, 11, 12, 13], length := 4 }

/-- Claim C1: for a read on a template-backed handle whose cache holds
`f.length` bytes, an offset at or past the cache length yields the
EOF-signaling error, and an offset strictly below it copies exactly
min(size, length - offset) bytes of the cache starting at offset and
returns that count. -/
theorem readFileOp_template_read_correct (f : tFHFile) (size offset : Nat)
    (cs : List Nat) (pread : Nat → Nat → Int × List Nat)
    (hT : f.isTemplate = true) (hcs : f.contents = some cs)
    (hlen : cs.length = f.length) :
    (f.length ≤ offset →
      readFileOp (some f) size offset pread = (-cEOF, [])) ∧
    (offset < f.length →
      (readFileOp (some f) size offset pread).1 =
        ((min size (f.length - offset) : Nat) : Int) ∧
      (readFileOp (some f) size offset pread).2 =
        (cs.drop offset).take (min size (f.length - offset)) ∧
      (readFileOp (some f) size offset pread).2.length =
        min size (f.length - offset)) := by
  constructor
  · intro hpast
    simp [readFileOp, hT, hcs, hpast]
  · intro hbefore
    have hif : ¬ f.length ≤ offset := by omega
    have hsz : (if f.length < offset + size then f.length - offset else size) =
        min size (f.length - offset) := by
      split <;> omega
    have hev : readFileOp (some f) size offset pread =
        (((min size (f.length - offset) : Nat) : Int),
         (cs.drop offset).take (min size (f.length - offset))) := by
      simp [readFileOp, hT, hcs, hif, hsz]
    rw [hev]
    refine ⟨rfl, rfl, ?_⟩
    simp only [List.length_take, List.length_drop, hlen]
    omega

/-- Claim C1 witness: a concrete template handle with a 4-byte cache, read
at offset 1 with size 10, and at offset 4 (the cache length). -/
theorem readFileOp_template_read_correct_witness :
    (fhC1.isTemplate = true ∧ fhC1.contents = some [10, 11, 12, 13] ∧
      ([10, 11, 12, 13] : List Nat).length = fhC1.length) ∧
    ((fhC1.length ≤ 1 →
        readFileOp (some fhC1) 10 1 (fun _ _ => (0, [])) = (-cEOF, [])) ∧
     (1 < fhC1.length →
        (readFileOp (some fhC1) 10 1 (fun _ _ => (0, []))).1 =
          ((min 10 (fhC1.length - 1) : Nat) : Int) ∧
        (readFileOp (some fhC1) 10 1 (fun _ _ => (0, []))).2 =
          (([10, 11, 12, 13] : List Nat).drop 1).take (min 10 (fhC1.length - 1)) ∧
        (readFileOp (some fhC1) 10 1 (fun _ _ => (0, []))).2.length =
          min 10 (fhC1.length - 1))) :=
  ⟨⟨rfl, rfl, rfl⟩,
   readFileOp_template_read_correct fhC1 10 1 [10, 11, 12, 13]
     (fun _ _ => (0, [])) rfl rfl rfl⟩

/-- Claim C10: the EOF-signaling error returned by readFileOp at or past the
end of the cache (or with an absent cache) is -EOF, which equals +1 — a
positive byte count rather than a negative errno. -/
theorem readFileOp_eof_positive (f : tFHFile) (size offset : Nat)
    (pread : Nat → Nat → Int × List Nat)
    (hT : f.isTemplate = true)
    (hPast : f.contents = none ∨ f.length ≤ offset) :
    (readFileOp (some f) size offset pread).1 = -cEOF ∧
    -cEOF = 1 ∧ (0 : Int) < -cEOF := by
  refine ⟨?_, by decide, by decide⟩
  rcases hPast with hnone | hoff
  · simp [readFileOp, hT, hnone]
  · cases hcs : f.contents with
    | none => simp [readFileOp, hT, hcs]
    | some cs => simp [readFileOp, hT, hcs, hoff]

/-- Claim C10 witness: the concrete template handle read at its cache length. -/
theorem readFileOp_eof_positive_witness :
    (fhC1.isTemplate = true ∧
      (fhC1.contents = none ∨ fhC1.length ≤ 4)) ∧
    ((readFileOp (some fhC1) 10 4 (fun _ _ => (0, []))).1 = -cEOF ∧
      -cEOF = 1 ∧ (0 : Int) < -cEOF) :=
  ⟨⟨rfl, Or.inr (by decide)⟩,
   readFileOp_eof_positive fhC1 10 4 (fun _ _ => (0, [])) rfl
     (Or.inr (by decide))⟩

/-- Claim C2: when a path has a template entry and the template file opens,
the open result is exactly the render's result code (so every rendering error
propagates as the open result), and the installed handle's cache is exactly
the complete output the render produced — open succeeds only with the fully
populated cache, so a partially rendered cache is never observable through a
successful open. -/
theorem openFileOp_render_errors_propagate (path : String) (hasX : Bool)
    (openatRes : Int) (execRender procRender : Int × Option (List Nat))
    (hOk : 0 ≤ openatRes) :
    (openFileOp path true hasX openatRes execRender procRender).1 =
      (if hasX then execRender else procRender).1 ∧
    (∀ f, (openFileOp path true hasX openatRes execRender procRender).2 = some f →
      f.contents = (if hasX then execRender else procRender).2 ∧
      f.length = ((if hasX then execRender else procRender).2.getD []).length) := by
  have hneg : ¬ openatRes < 0 := by omega
  have hev : openFileOp path true hasX openatRes execRender procRender =
      ((if hasX then execRender else procRender).1,
       some { path := path, fd := openatRes, isTemplate := true,
              isExecutable := hasX,
              contents := (if hasX then execRender else procRender).2,
              length := ((if hasX then execRender else procRender).2.getD []).length }) := by
    cases hasX <;> simp [openFileOp, hneg]
  constructor
  · rw [hev]
  · intro f hf
    rw [hev] at hf
    simp only [Option.some.injEq] at hf
    subst hf
    exact ⟨rfl, rfl⟩

/-- Claim C2 witness: a non-executable template whose render fails with
-EINVAL; the open result is that error and the cache equals the render
output. -/
theorem openFileOp_render_errors_propagate_witness :
    ((0 : Int) ≤ 3) ∧
    ((openFileOp "/x" true false 3 (0, none) (-EINVAL, none)).1 =
        (if false then ((0 : Int), (none : Option (List Nat)))
         else (-EINVAL, none)).1 ∧
     (∀ f, (openFileOp "/x" true false 3 (0, none) (-EINVAL, none)).2 = some f →
        f.contents = (if false then ((0 : Int), (none : Option (List Nat)))
                      else (-EINVAL, none)).2 ∧
        f.length = ((if false then ((0 : Int), (none : Option (List Nat)))
                     else (-EINVAL, none)).2.getD []).length)) :=
  ⟨by decide,
   openFileOp_render_errors_propagate "/x" false 3 (0, none) (-EINVAL, none)
     (by decide)⟩

/-- Claim C4: on a handle whose path has a template entry, write returns
-EPERM and truncate (invoked with that handle) returns -EPERM, and neither
invokes the pass-through syscall that would change the file. -/
theorem template_write_truncate_eperm (f : tFHFile) (buf : List Nat)
    (offset : Nat) (pwriteRes truncateRawRes ftruncateRes : Int)
    (hT : f.isTemplate = true) :
    writeFileOp (some f) buf offset pwriteRes = (-EPERM, false) ∧
    truncateFileOp true (some f) truncateRawRes ftruncateRes = (-EPERM, false) := by
  unfold writeFileOp truncateFileOp
  simp [hT]

/-- Claim C4 witness: write and truncate on the concrete template handle. -/
theorem template_write_truncate_eperm_witness :
    (fhC1.isTemplate = true) ∧
    (writeFileOp (some fhC1) [1, 2] 0 2 = (-EPERM, false) ∧
     truncateFileOp true (some fhC1) 0 0 = (-EPERM, false)) :=
  ⟨rfl, template_write_truncate_eperm fhC1 [1, 2] 0 2 0 0 rfl⟩

/-- Claim C9: createFileOp returns 0 even when the underlying openat fails;
the openat error is never propagated, and the installed handle's descriptor
field keeps its calloc'd value 0 (it was never set). -/
theorem createFileOp_ignores_openat_failure (path : String) (openatRaw errno : Int)
    (hfail : fixupResult openatRaw errno < 0) :
    (createFileOp path openatRaw errno).1 = 0 ∧
    (∃ f, (createFileOp path openatRaw errno).2 = some f ∧
      f.fd = 0 ∧ f.path = "") := by
  have hneg : ¬ 0 ≤ fixupResult openatRaw errno := by omega
  have hev : createFileOp path openatRaw errno =
      (0, some { path := "", fd := 0, isTemplate := false, isExecutable := false,
                 contents := none, length := 0 }) := by
    simp [createFileOp, hneg]
  rw [hev]
  exact ⟨rfl, _, rfl, rfl, rfl⟩

/-- Claim C9 witness: openat fails with errno 13 (EACCES); create still
returns 0 and installs a handle with descriptor 0. -/
theorem createFileOp_ignores_openat_failure_witness :
    (fixupResult (-1) 13 < 0) ∧
    ((createFileOp "/newfile" (-1) 13).1 = 0 ∧
     (∃ f, (createFileOp "/newfile" (-1) 13).2 = some f ∧
        f.fd = 0 ∧ f.path = "")) :=
  ⟨by decide, createFileOp_ignores_openat_failure "/newfile" (-1) 13 (by decide)⟩

/-!
getFileAttrOp (src/fuseOperations.c lines 375-426): stat, then — for a
template — clear the write bits (plus the execute bits unless a directory)
and report the cache length as the size when cached contents exist.
-/

def S_IWUSR : Nat := 0o200
def S_IWGRP : Nat := 0o020
def S_IWOTH : Nat := 0o002
def S_IXUSR : Nat := 0o100
def S_IXGRP : Nat := 0o010
def S_IXOTH : Nat := 0o001
def S_IFMT : Nat := 0o170000
def S_IFDIR : Nat := 0o040000

def S_ISDIR (mode : Nat) : Bool :=
  mode &&& S_IFMT == S_IFDIR

/-- mode & ~mask for a 32-bit mode_t (the complement taken in 32 bits). -/
def clearBits (mode mask : Nat) : Nat :=
  mode &&& (4294967295 - mask)

/-- The mask cleared from a template's mode: the write bits, plus the execute
bits when the object is not a directory. -/
def templateModeMask (mode : Nat) : Nat :=
  let mask := S_IWUSR ||| S_IWGRP ||| S_IWOTH
  if !(S_ISDIR mode) then
    mask ||| S_IXUSR ||| S_IXGRP ||| S_IXOTH
  else
    mask

structure StatBuf where
  st_mode : Nat
  st_size : Int
deriving Repr, DecidableEq

/-- The template gate of getFileAttrOp: the handle's flag when a handle is
present, else the faccessat probe of the template tree. -/
def getAttrIsTemplate (fh : Option tFHFile) (hasT : Bool) : Bool :=
  match fh with
  | none => hasT
  | some f => f.isTemplate

/-- getFileAttrOp.  `statRes` is the outcome of the fstatat/fstat call
(result code and the filled stat buffer). -/
def getFileAttrOp (fh : Option tFHFile) (hasT : Bool)
    (statRes : Int × StatBuf) : Int × StatBuf :=
  let result := statRes.1
  let st := statRes.2
  if getAttrIsTemplate fh hasT then
    let st1 : StatBuf :=
      { st with st_mode := clearBits st.st_mode (templateModeMask st.st_mode) }
    let st2 : StatBuf :=
      match fh with
      | some f =>
        match f.contents with
        | some _ => { st1 with st_size := (f.length : Int) }
        | none => st1
      | none => st1
    (result, st2)
  else
    (result, st)

/-- Masking twice with disjoint masks gives zero. -/
theorem land_land_eq_zero (m c t : Nat) (h : c &&& t = 0) :
    (m &&& c) &&& t = 0 := by
  apply Nat.eq_of_testBit_eq
  intro i
  simp only [Nat.testBit_land, Nat.zero_testBit]
  have hi : (c &&& t).testBit i = false := by
    rw [h]
    exact Nat.zero_testBit i
  rw [Nat.testBit_land] at hi
  cases hc : Nat.testBit c i <;> cases ht : Nat.testBit t i <;> simp_all

/-- Claim C5: a successful getattr on a path with a template entry reports a
mode with all write permission bits cleared and, when the object is not a
directory, all execute permission bits cleared; and when the handle carries
cached contents, the reported size is the cache length. -/
theorem getFileAttrOp_template_readonly (fh : Option tFHFile) (hasT : Bool)
    (statRes : Int × StatBuf)
    (hT : getAttrIsTemplate fh hasT = true)
    (hOk : statRes.1 = 0) :
    (getFileAttrOp fh hasT statRes).1 = 0 ∧
    (getFileAttrOp fh hasT statRes).2.st_mode &&&
      (S_IWUSR ||| S_IWGRP ||| S_IWOTH) = 0 ∧
    (S_ISDIR statRes.2.st_mode = false →
      (getFileAttrOp fh hasT statRes).2.st_mode &&&
        (S_IXUSR ||| S_IXGRP ||| S_IXOTH) = 0) ∧
    (∀ f cs, fh = some f → f.contents = some cs →
      (getFileAttrOp fh hasT statRes).2.st_size = (f.length : Int)) := by
  have hres : (getFileAttrOp fh hasT statRes).1 = statRes.1 := by
    cases fh with
    | none => simp [getFileAttrOp, hT]
    | some f => cases hc : f.contents <;> simp [getFileAttrOp, hT, hc]
  have hmode : (getFileAttrOp fh hasT statRes).2.st_mode =
      clearBits statRes.2.st_mode (templateModeMask statRes.2.st_mode) := by
    cases fh with
    | none => simp [getFileAttrOp, hT]
    | some f => cases hc : f.contents <;> simp [getFileAttrOp, hT, hc]
  have hmask1 : ∀ m, clearBits m (templateModeMask m) &&&
      (S_IWUSR ||| S_IWGRP ||| S_IWOTH) = 0 := by
    intro m
    unfold clearBits templateModeMask
    split
    · exact land_land_eq_zero m _ _ (by decide)
    · exact land_land_eq_zero m _ _ (by decide)
  have hmask2 : ∀ m, S_ISDIR m = false → clearBits m (templateModeMask m) &&&
      (S_IXUSR ||| S_IXGRP ||| S_IXOTH) = 0 := by
    intro m h
    unfold clearBits templateModeMask
    split
    · exact land_land_eq_zero m _ _ (by decide)
    · simp_all
  refine ⟨by rw [hres, hOk], by rw [hmode]; exact hmask1 _, ?_, ?_⟩
  · intro hnd
    rw [hmode]
    exact hmask2 _ hnd
  · intro f cs hfh hcs
    subst hfh
    simp [getFileAttrOp, hT, hcs]

/-- Claim C5 witness: the concrete cached template handle with stat mode
0o100644 (regular file) and stat size 999. -/
theorem getFileAttrOp_template_readonly_witness :
    (getAttrIsTemplate (some fhC1) true = true ∧
      ((0 : Int), ({ st_mode := 0o100644, st_size := 999 } : StatBuf)).1 = 0) ∧
    ((getFileAttrOp (some fhC1) true (0, { st_mode := 0o100644, st_size := 999 })).1 = 0 ∧
     (getFileAttrOp (some fhC1) true
        (0, { st_mode := 0o100644, st_size := 999 })).2.st_mode &&&
       (S_IWUSR ||| S_IWGRP ||| S_IWOTH) = 0 ∧
     (S_ISDIR ({ st_mode := 0o100644, st_size := 999 } : StatBuf).st_mode = false →
       (getFileAttrOp (some fhC1) true
          (0, { st_mode := 0o100644, st_size := 999 })).2.st_mode &&&
         (S_IXUSR ||| S_IXGRP ||| S_IXOTH) = 0) ∧
     (∀ f cs, (some fhC1 : Option tFHFile) = some f → f.contents = some cs →
       (getFileAttrOp (some fhC1) true
          (0, { st_mode := 0o100644, st_size := 999 })).2.st_size = (f.length : Int))) :=
  ⟨⟨rfl, rfl⟩,
   getFileAttrOp_template_readonly (some fhC1) true
     (0, { st_mode := 0o100644, st_size := 999 }) rfl rfl⟩

/-!
Path resolution of the operations surface (claim C6).  Each constructor
names the source function whose syscall resolves a virtual path; the
PathAccess records the resolution base it uses and the path string it
passes.  All *at calls strip the leading slash (&path[1]); statvfs in
getFsStatsOp and truncate in the null-handle branch of truncateFileOp
receive the raw virtual path, resolved against the process's own root.
-/

inductive PathBase where
  | mountAnchor
  | templateAnchor
  | processRoot
deriving Repr, DecidableEq

structure PathAccess where
  base : PathBase
  relPath : String
deriving Repr, DecidableEq

inductive SurfaceOp where
  | getFileAttr (isTemplate : Bool)
  | fileAccess
  | readSymlink
  | openDir
  | mkNod
  | createDir
  | fileUnlink
  | removeDir
  | createSymlink
  | renameFrom
  | renameTo
  | linkFrom
  | linkTo
  | chmodFile
  | chownFile
  | truncateNullFi
  | createFile
  | openFile (isTemplate : Bool)
  | getFsStats
deriving Repr, DecidableEq

def surfacePathAccess (op : SurfaceOp) (path : String) : PathAccess :=
  match op with
  | .getFileAttr isT =>
      { base := if isT then .templateAnchor else .mountAnchor,
        relPath := path.drop 1 }
  | .fileAccess => { base := .mountAnchor, relPath := path.drop 1 }
  | .readSymlink => { base := .mountAnchor, relPath := path.drop 1 }
  | .openDir => { base := .mountAnchor, relPath := path.drop 1 }
  | .mkNod => { base := .mountAnchor, relPath := path.drop 1 }
  | .createDir => { base := .mountAnchor, relPath := path.drop 1 }
  | .fileUnlink => { base := .mountAnchor, relPath := path.drop 1 }
  | .removeDir => { base := .mountAnchor, relPath := path.drop 1 }
  | .createSymlink => { base := .mountAnchor, relPath := path.drop 1 }
  | .renameFrom => { base := .mountAnchor, relPath := path.drop 1 }
  | .renameTo => { base := .mountAnchor, relPath := path.drop 1 }
  | .linkFrom => { base := .mountAnchor, relPath := path.drop 1 }
  | .linkTo => { base := .mountAnchor, relPath := path.drop 1 }
  | .chmodFile => { base := .mountAnchor, relPath := path.drop 1 }
  | .chownFile => { base := .mountAnchor, relPath := path.drop 1 }
  | .truncateNullFi => { base := .processRoot, relPath := path }
  | .createFile => { base := .mountAnchor, relPath := path.drop 1 }
  | .openFile isT =>
      { base := if isT then .templateAnchor else .mountAnchor,
        relPath := path.drop 1 }
  | .getFsStats => { base := .processRoot, relPath := path }

/-- Claim C6 counterexample: getFsStatsOp resolves its virtual path with
statvfs(path, ...) against the process's own root, so not every path-taking
operation is an *at-style call based at the mount anchor's descriptor with
the leading slash stripped. -/
theorem getFsStats_resolves_raw_path :
    ¬ (∀ (op : SurfaceOp) (path : String),
        (surfacePathAccess op path).base = PathBase.mountAnchor ∧
        (surfacePathAccess op path).relPath = path.drop 1) := by
  intro h
  exact absurd (h SurfaceOp.getFsStats "/a").1 (by decide)

/-- Claim C6 (amended): every path-taking operation on the surface except
statfs and truncate-with-a-null-handle resolves through an *at-style call
based at one of the two tree anchors' descriptors (the mount anchor, except
the template-gated getattr and open which use the template anchor), passing
the path with its leading slash stripped; statfs and the null-handle
truncate pass the raw virtual path, resolved against the process's root. -/
theorem surfacePathAccess_anchored (op : SurfaceOp) (path : String)
    (h1 : op ≠ SurfaceOp.getFsStats) (h2 : op ≠ SurfaceOp.truncateNullFi) :
    ((surfacePathAccess op path).base = PathBase.mountAnchor ∨
     (surfacePathAccess op path).base = PathBase.templateAnchor) ∧
    (surfacePathAccess op path).relPath = path.drop 1 := by
  cases op <;> simp_all [surfacePathAccess]

/-- Claim C6 witness: the amended statement at fileUnlink on "/a". -/
theorem surfacePathAccess_anchored_witness :
    (SurfaceOp.fileUnlink ≠ SurfaceOp.getFsStats ∧
      SurfaceOp.fileUnlink ≠ SurfaceOp.truncateNullFi) ∧
    (((surfacePathAccess SurfaceOp.fileUnlink "/a").base = PathBase.mountAnchor ∨
      (surfacePathAccess SurfaceOp.fileUnlink "/a").base = PathBase.templateAnchor) ∧
     (surfacePathAccess SurfaceOp.fileUnlink "/a").relPath = "/a".drop 1) :=
  ⟨⟨by decide, by decide⟩,
   surfacePathAccess_anchored SurfaceOp.fileUnlink "/a" (by decide) (by decide)⟩

/-!
The template-render engine's array iteration (src/processTemplate.c lines
36-43 and 196-228).  A configuration key is modelled by its path segments;
keyIsBelow and keyIsDirectlyBelow follow the libelektra semantics the spec
relies on (strictly below; below with no intermediate segments), and
ksAtCursor is positional lookup in the key set, NULL out of range.
-/

def Key : Type := List String

instance : DecidableEq Key := by
  unfold Key
  infer_instance

instance : Repr Key := by
  unfold Key
  infer_instance

/-- check is strictly below base: base's segments are a proper front of it. -/
def keyIsBelow (base k : Key) : Bool :=
  decide (List.take (List.length base) k = base ∧
          List.length base < List.length k)

/-- check is directly below base: below with exactly one extra segment. -/
def keyIsDirectlyBelow (base k : Key) : Bool :=
  decide (List.take (List.length base) k = base ∧
          List.length k = List.length base + 1)

def ksAtCursor (ks : List Key) (cursor : Int) : Option Key :=
  if 0 ≤ cursor then ks.get? cursor.toNat else none

theorem ksAtCursor_some_bounds (ks : List Key) (c : Int) (k : Key)
    (h : ksAtCursor ks c = some k) : 0 ≤ c ∧ c.toNat < ks.length := by
  unfold ksAtCursor at h
  split at h
  · rename_i hc
    refine ⟨hc, ?_⟩
    by_contra hlt
    rw [List.get?_eq_none.mpr (by omega)] at h
    cases h
  · cases h

/-- tSection (src/processTemplate.c lines 36-43). -/
structure tSection where
  arraySelection : Option Key
  selection : Option Key
  depth : Int
  isArray : Bool
  cursor : Int
deriving Repr, DecidableEq

/-- The do-while loop of selectNextArrayKey: advance the cursor; a key that
is below the array base but not directly below it is skipped; a key directly
below it is the hit (result 1); a missing key or one no longer below the
base stops the scan (result 0).  Returns (result, final cursor, hit key). -/
def selectNextArrayKeyLoop (base : Key) (ks : List Key) (c : Int) :
    Int × Int × Option Key :=
  match h : ksAtCursor ks (c + 1) with
  | none => (0, c + 1, none)
  | some k =>
    if keyIsBelow base k then
      if keyIsDirectlyBelow base k then
        (1, c + 1, some k)
      else
        selectNextArrayKeyLoop base ks (c + 1)
    else
      (0, c + 1, none)
termination_by ks.length + 1 - (c + 1).toNat
decreasing_by
  have hb := ksAtCursor_some_bounds ks (c + 1) k h
  omega

/-- selectNextArrayKey (src/processTemplate.c lines 196-228): nothing
happens unless the section is iterating an array; otherwise run the scan
loop from the section's cursor and, on result 1 with a hit key, make that
key the section's selection. -/
def selectNextArrayKey (s : tSection) (ks : List Key) : Int × tSection :=
  match s.isArray, s.arraySelection with
  | true, some base =>
    let r := selectNextArrayKeyLoop base ks s.cursor
    let s1 : tSection := { s with cursor := r.2.1 }
    if r.1 = 1 then
      match r.2.2 with
      | some k => (1, { s1 with selection := some k })
      | none => (1, s1)
    else
      (r.1, s1)
  | _, _ => (0, s)

/-! Unfolding lemmas for the scan loop (one per branch of the do-while). -/

theorem selectNextArrayKeyLoop_none (base : Key) (ks : List Key) (c : Int)
    (h : ksAtCursor ks (c + 1) = none) :
    selectNextArrayKeyLoop base ks c = (0, c + 1, none) := by
  rw [selectNextArrayKeyLoop.eq_def]
  split
  · rfl
  · rename_i k2 h2
    rw [h] at h2
    exact Option.noConfusion h2

theorem selectNextArrayKeyLoop_stop (base : Key) (ks : List Key) (c : Int)
    (k : Key) (h : ksAtCursor ks (c + 1) = some k)
    (hb : keyIsBelow base k = false) :
    selectNextArrayKeyLoop base ks c = (0, c + 1, none) := by
  rw [selectNextArrayKeyLoop.eq_def]
  split
  · rename_i h2
    rw [h] at h2
  · rename_i k2 h2
    rw [h] at h2
    injection h2 with h2
    subst h2
    simp [hb]

theorem selectNextArrayKeyLoop_hit (base : Key) (ks : List Key) (c : Int)
    (k : Key) (h : ksAtCursor ks (c + 1) = some k)
    (hb : keyIsBelow base k = true) (hd : keyIsDirectlyBelow base k = true) :
    selectNextArrayKeyLoop base ks c = (1, c + 1, some k) := by
  rw [selectNextArrayKeyLoop.eq_def]
  split
  · rename_i h2
    rw [h] at h2
    exact Option.noConfusion h2
  · rename_i k2 h2
    rw [h] at h2
    injection h2 with h2
    subst h2
    simp [hb, hd]

theorem selectNextArrayKeyLoop_skip (base : Key) (ks : List Key) (c : Int)
    (k : Key) (h : ksAtCursor ks (c + 1) = some k)
    (hb : keyIsBelow base k = true) (hd : keyIsDirectlyBelow base k = false) :
    selectNextArrayKeyLoop base ks c = selectNextArrayKeyLoop base ks (c + 1) := by
  rw [selectNextArrayKeyLoop.eq_def]
  split
  · rename_i h2
    rw [h] at h2
    exact Option.noConfusion h2
  · rename_i k2 h2
    rw [h] at h2
    injection h2 with h2
    subst h2
    simp [hb, hd]

/-- The loop's full behaviour, as a predicate on the starting cursor. -/
def loopSpecAt (base : Key) (ks : List Key) (c : Int) : Prop :=
  c < (selectNextArrayKeyLoop base ks c).2.1 ∧
  ((selectNextArrayKeyLoop base ks c).1 = 1 ∨
    (selectNextArrayKeyLoop base ks c).1 = 0) ∧
  ((selectNextArrayKeyLoop base ks c).1 = 1 →
    ∃ k, (selectNextArrayKeyLoop base ks c).2.2 = some k ∧
      ksAtCursor ks (selectNextArrayKeyLoop base ks c).2.1 = some k ∧
      keyIsDirectlyBelow base k = true) ∧
  ((selectNextArrayKeyLoop base ks c).1 = 0 →
    (selectNextArrayKeyLoop base ks c).2.2 = none ∧
    ∀ k, ksAtCursor ks (selectNextArrayKeyLoop base ks c).2.1 = some k →
      keyIsBelow base k = false) ∧
  (∀ j, c < j → j < (selectNextArrayKeyLoop base ks c).2.1 →
    ∀ kj, ksAtCursor ks j = some kj →
      keyIsBelow base kj = true ∧ keyIsDirectlyBelow base kj = false)

theorem selectNextArrayKeyLoop_spec (base : Key) (ks : List Key) :
    ∀ (n : Nat) (c : Int), ks.length + 1 - (c + 1).toNat ≤ n →
      loopSpecAt base ks c := by
  intro n
  induction n with
  | zero =>
    intro c hc
    have hnone : ksAtCursor ks (c + 1) = none := by
      unfold ksAtCursor
      split
      · apply List.get?_eq_none.mpr
        omega
      · rfl
    unfold loopSpecAt
    rw [selectNextArrayKeyLoop_none base ks c hnone]
    dsimp only
    refine ⟨by omega, Or.inr rfl, ?_, ?_, ?_⟩
    · intro h10
      exact absurd h10 (by decide)
    · intro _
      refine ⟨rfl, ?_⟩
      intro k hk
      rw [hnone] at hk
      cases hk
    · intro j hj1 hj2 kj hkj
      exfalso
      omega
  | succ n ih =>
    intro c hc
    cases h : ksAtCursor ks (c + 1) with
    | none =>
      unfold loopSpecAt
      rw [selectNextArrayKeyLoop_none base ks c h]
      dsimp only
      refine ⟨by omega, Or.inr rfl, ?_, ?_, ?_⟩
      · intro h10
        exact absurd h10 (by decide)
      · intro _
        refine ⟨rfl, ?_⟩
        intro k hk
        rw [h] at hk
        cases hk
      · intro j hj1 hj2 kj hkj
        exfalso
        omega
    | some k =>
      have hbd := ksAtCursor_some_bounds ks (c + 1) k h
      cases hb : keyIsBelow base k with
      | false =>
        unfold loopSpecAt
        rw [selectNextArrayKeyLoop_stop base ks c k h hb]
        dsimp only
        refine ⟨by omega, Or.inr rfl, ?_, ?_, ?_⟩
        · intro h10
          exact absurd h10 (by decide)
        · intro _
          refine ⟨rfl, ?_⟩
          intro k2 hk2
          rw [h] at hk2
          injection hk2 with hk2
          subst hk2
          exact hb
        · intro j hj1 hj2 kj hkj
          exfalso
          omega
      | true =>
        cases hd : keyIsDirectlyBelow base k with
        | true =>
          unfold loopSpecAt
          rw [selectNextArrayKeyLoop_hit base ks c k h hb hd]
          dsimp only
          refine ⟨by omega, Or.inl rfl, ?_, ?_, ?_⟩
          · intro _
            exact ⟨k, rfl, h, hd⟩
          · intro h01
            exact absurd h01 (by decide)
          · intro j hj1 hj2 kj hkj
            exfalso
            omega
        | false =>
          have hrec : loopSpecAt base ks (c + 1) := by
            apply ih
            omega
          unfold loopSpecAt
          rw [selectNextArrayKeyLoop_skip base ks c k h hb hd]
          unfold loopSpecAt at hrec
          obtain ⟨h1, h2, h3, h4, h5⟩ := hrec
          refine ⟨by omega, h2, h3, h4, ?_⟩
          intro j hj1 hj2 kj hkj
          rcases eq_or_lt_of_le (by omega : c + 1 ≤ j) with heq | hlt
          · subst heq
            rw [h] at hkj
            injection hkj with hkj
            subst hkj
            exact ⟨hb, hd⟩
          · exact h5 j hlt hj2 kj hkj

/-- The full behaviour of selectNextArrayKey on an array-iterating section:
the cursor strictly advances; result 1 exactly when a key directly below the
array base was activated as the new selection (found at the final cursor);
result 0 leaves the selection alone and means the final cursor sits past the
keys below the base (on a key not below it, or past the set); and every key
the cursor skipped over was below the base but not directly below it. -/
def selectNextSpec (s : tSection) (ks : List Key) (base : Key) : Prop :=
  s.cursor < (selectNextArrayKey s ks).2.cursor ∧
  ((selectNextArrayKey s ks).1 = 1 ∨ (selectNextArrayKey s ks).1 = 0) ∧
  ((selectNextArrayKey s ks).1 = 1 →
    ∃ k, (selectNextArrayKey s ks).2.selection = some k ∧
      ksAtCursor ks (selectNextArrayKey s ks).2.cursor = some k ∧
      keyIsDirectlyBelow base k = true) ∧
  ((selectNextArrayKey s ks).1 = 0 →
    (selectNextArrayKey s ks).2.selection = s.selection ∧
    ∀ k, ksAtCursor ks (selectNextArrayKey s ks).2.cursor = some k →
      keyIsBelow base k = false) ∧
  (∀ j, s.cursor < j → j < (selectNextArrayKey s ks).2.cursor →
    ∀ kj, ksAtCursor ks j = some kj →
      keyIsBelow base kj = true ∧ keyIsDirectlyBelow base kj = false)

/-- Claim C7: on a section iterating an array (array base set), the advance
operation activates a candidate key exactly when that key is directly below
the array base — keys below but not directly below are skipped — returning 1
when a next element was activated and 0 once the cursor has moved past the
last direct child of the base. -/
theorem selectNextArrayKey_array_iteration (s : tSection) (ks : List Key)
    (base : Key) (hArr : s.isArray = true)
    (hBase : s.arraySelection = some base) :
    selectNextSpec s ks base := by
  have hunfold : selectNextArrayKey s ks =
      (let r := selectNextArrayKeyLoop base ks s.cursor
       let s1 : tSection := { s with cursor := r.2.1 }
       if r.1 = 1 then
         match r.2.2 with
         | some k => (1, { s1 with selection := some k })
         | none => (1, s1)
       else
         (r.1, s1)) := by
    unfold selectNextArrayKey
    rw [hArr, hBase]
  have hloop : loopSpecAt base ks s.cursor :=
    selectNextArrayKeyLoop_spec base ks (ks.length + 1) s.cursor (by omega)
  unfold loopSpecAt at hloop
  obtain ⟨h1, h2, h3, h4, h5⟩ := hloop
  unfold selectNextSpec
  rcases h2 with hr1 | hr0
  · obtain ⟨k, hk, hat, hdir⟩ := h3 hr1
    have hres1 : (selectNextArrayKey s ks).1 = 1 := by
      rw [hunfold]
      simp [hr1, hk]
    have hcur : (selectNextArrayKey s ks).2.cursor =
        (selectNextArrayKeyLoop base ks s.cursor).2.1 := by
      rw [hunfold]
      simp [hr1, hk]
    have hsel : (selectNextArrayKey s ks).2.selection = some k := by
      rw [hunfold]
      simp [hr1, hk]
    rw [hres1, hcur, hsel]
    refine ⟨h1, Or.inl rfl, ?_, ?_, ?_⟩
    · intro _
      exact ⟨k, rfl, hat, hdir⟩
    · intro h01
      exact absurd h01 (by decide)
    · intro j hj1 hj2 kj hkj
      exact h5 j hj1 hj2 kj hkj
  · obtain ⟨hknone, hstop⟩ := h4 hr0
    have hres0 : (selectNextArrayKey s ks).1 = 0 := by
      rw [hunfold]
      simp [hr0]
    have hcur : (selectNextArrayKey s ks).2.cursor =
        (selectNextArrayKeyLoop base ks s.cursor).2.1 := by
      rw [hunfold]
      simp [hr0]
    have hsel : (selectNextArrayKey s ks).2.selection = s.selection := by
      rw [hunfold]
      simp [hr0]
    rw [hres0, hcur, hsel]
    refine ⟨h1, Or.inr rfl, ?_, ?_, ?_⟩
    · intro h10
      exact absurd h10 (by decide)
    · intro _
      exact ⟨rfl, hstop⟩
    · intro j hj1 hj2 kj hkj
      exact h5 j hj1 hj2 kj hkj

/-- A concrete array-iterating section and key set for the C7 witness: the
cursor sits on the array base, the next key is the first direct child. -/
def sectionC7 : tSection :=
  { arraySelection := some ["config", "items"],
    selection := some ["config", "items"],
    depth := 0, isArray := true, cursor := 1 }

def ksC7 : List Key :=
  [["config"], ["config", "items"], ["config", "items", "#0"],
   ["config", "items", "#1"], ["other"]]

/-- Claim C7 witness: the behaviour predicate at the concrete section. -/
theorem selectNextArrayKey_array_iteration_witness :
    (sectionC7.isArray = true ∧
      sectionC7.arraySelection = some ["config", "items"]) ∧
    selectNextSpec sectionC7 ksC7 ["config", "items"] :=
  ⟨⟨rfl, rfl⟩,
   selectNextArrayKey_array_iteration sectionC7 ksC7 ["config", "items"] rfl rfl⟩

end Templatefs
